import Mathlib

/-!
Verification of the multi-asset strategy tester
(`src/agents/rbi_multi_asset_tester.py`).

The Python module uses `re.search` / `re.sub` over a restricted pattern
class: case-(in)sensitive literals, the classes `\s`, `\d`, `.` (no
DOTALL, so `.` excludes newline), greedy stars `\s*` / `\d*`, the lazy
star `.*?`, optional single characters (`\.?`, `[+-]?`), and a single
capturing group per pattern.  We embed exactly this class as a small
regex AST with a backtracking matcher whose alternative order mirrors
the CPython backtracking engine (greedy prefers longer, lazy prefers
shorter, leftmost search position wins).

Strings are modelled as `List Char`.  Wall-clock fields of the result
record (`execution_time`, `timestamp`) are real-time observations and
are omitted from the embedding; no claim depends on them.
-/

namespace RBI

/-- Python `\s` on the ASCII range: space, tab, newline, carriage
return, vertical tab, form feed. -/
def isPySpace (c : Char) : Bool :=
  c == ' ' || c == '\t' || c == '\n' || c == '\r' ||
  c == Char.ofNat 11 || c == Char.ofNat 12

/-- `.` without `re.DOTALL`: any character except newline. -/
def isDotChar (c : Char) : Bool := c != '\n'

/-- A single quote character (ASCII 39), the second member of the
quote class used by the rewrite rules. -/
def squote : Char := Char.ofNat 39

/-- The quote class: a double or single quote character. -/
def isQuote (c : Char) : Bool := c == '"' || c == squote

/-- Restricted regex AST covering every pattern in the module.
Stars carry their own constructor because all starred subterms in the
source patterns are single character classes, which keeps the matcher
structurally terminating. -/
inductive RE where
  | eps
  | cls (p : Char → Bool)
  | seq (a b : RE)
  | opt (p : Char → Bool)
  | starG (p : Char → Bool)
  | starL (p : Char → Bool)

/-- Greedy Kleene star over a character class: prefer consuming. -/
def starGreedy (p : Char → Bool) : List Char → (List Char → Option β) → Option β
  | [], k => k []
  | c :: s, k =>
    if p c then (starGreedy p s k).orElse (fun _ => k (c :: s)) else k (c :: s)

/-- Lazy Kleene star over a character class: prefer not consuming. -/
def starLazy (p : Char → Bool) : List Char → (List Char → Option β) → Option β
  | s, k =>
    (k s).orElse (fun _ =>
      match s with
      | [] => none
      | c :: s' => if p c then starLazy p s' k else none)

/-- Backtracking matcher in continuation-passing style.  `matchP r s k`
tries every way `r` can consume a prefix of `s`, in CPython preference
order, calling `k` on the remainder; the first `some` wins. -/
def matchP : RE → List Char → (List Char → Option β) → Option β
  | .eps, s, k => k s
  | .cls p, s, k =>
    match s with
    | [] => none
    | c :: s' => if p c then k s' else none
  | .seq a b, s, k => matchP a s (fun s' => matchP b s' k)
  | .opt p, s, k =>
    match s with
    | [] => k []
    | c :: s' => if p c then (k s').orElse (fun _ => k (c :: s')) else k (c :: s')
  | .starG p, s, k => starGreedy p s k
  | .starL p, s, k => starLazy p s k

/-- A source pattern with exactly one capturing group:
`pre ( grp ) post`. -/
structure Pat where
  pre : RE
  grp : RE
  post : RE

/-- Match `pat` anchored at the start of `s`; on success return the
text captured by the group. -/
def matchCapAt (pat : Pat) (s : List Char) : Option (List Char) :=
  matchP pat.pre s (fun s1 =>
    matchP pat.grp s1 (fun s2 =>
      matchP pat.post s2 (fun _ =>
        some (s1.take (s1.length - s2.length)))))

/-- `re.search` with one group: try each start position from the left,
return the first capture. -/
def searchCap (pat : Pat) : List Char → Option (List Char)
  | [] => matchCapAt pat []
  | c :: s => (matchCapAt pat (c :: s)).orElse (fun _ => searchCap pat s)

/-- Remainder of `s` after a match of `r` anchored at its start. -/
def matchRemAt (r : RE) (s : List Char) : Option (List Char) :=
  matchP r s some

/-- Boolean `re.search` (no capture needed). -/
def reSearch (r : RE) : List Char → Bool
  | [] => (matchRemAt r []).isSome
  | c :: s => (matchRemAt r (c :: s)).isSome || reSearch r s

/-- `re.sub`: replace every non-overlapping leftmost match of `r` by
`repl`, scanning left to right.  (The patterns used by the module can
never match the empty string; the inner guard keeps the recursion
well-founded and, were a zero-width match ever to occur, advances one
character exactly as CPython does.) -/
def subAll (r : RE) (repl : List Char) : List Char → List Char
  | [] => []
  | c :: s =>
    match matchRemAt r (c :: s) with
    | some rem =>
      if h : rem.length ≤ s.length then repl ++ subAll r repl rem
      else repl ++ c :: subAll r repl s
    | none => c :: subAll r repl s
termination_by s => s.length
decreasing_by
  all_goals first
    | exact Nat.lt_succ_of_le h
    | exact Nat.lt_succ_self _

/-- Case-insensitive literal (for the `re.IGNORECASE` metric
patterns). -/
def reLitCI (cs : List Char) : RE :=
  cs.foldr (fun c r => RE.seq (RE.cls (fun x => x.toLower == c.toLower)) r) RE.eps

/-- Case-sensitive literal (for the rewrite-rule patterns, compiled
without flags). -/
def reLitCS (cs : List Char) : RE :=
  cs.foldr (fun c r => RE.seq (RE.cls (fun x => x == c)) r) RE.eps

/-- Sequencing helper. -/
def reSeq (rs : List RE) : RE := rs.foldr RE.seq RE.eps

/-- Digits of a decimal numeral to a natural number. -/
def digitsToNat (cs : List Char) : Nat :=
  cs.foldl (fun n c => n * 10 + (c.toNat - 48)) 0

/-- Model of Python `float()` restricted to the numeral shapes the
capture groups can produce: `[+-]? digits [ . digits* ]?` (also
accepting a leading `.` as `float` does).  Returns `none` where
`float()` would raise `ValueError`; values are exact rationals. -/
def parseUnsigned (s : List Char) : Option Rat :=
  let intPart := s.takeWhile Char.isDigit
  let rest := s.dropWhile Char.isDigit
  match rest with
  | [] =>
    if intPart.isEmpty then none else some (digitsToNat intPart)
  | c :: frac =>
    if c == '.' && frac.all Char.isDigit && (!intPart.isEmpty || !frac.isEmpty) then
      some ((digitsToNat intPart : Rat) +
        (digitsToNat frac : Rat) / ((10 : Rat) ^ frac.length))
    else none

/-- Signed variant of `parseUnsigned`. -/
def parseNum (s : List Char) : Option Rat :=
  match s with
  | '+' :: rest => parseUnsigned rest
  | '-' :: rest => (parseUnsigned rest).map Neg.neg
  | _ => parseUnsigned s

/-! ### The metric extraction patterns (`_parse_backtest_output`)

The Python dictionary `patterns` maps each metric name to an ordered
list of regexes, all searched with `re.IGNORECASE`.  Each is embedded
below as a `Pat` (prefix, capture group, suffix). -/

/-- `[+-]?\d+\.?\d*` — the signed-number capture group. -/
def numGroup : RE :=
  reSeq [RE.opt (fun c => c == '+' || c == '-'), RE.cls Char.isDigit,
    RE.starG Char.isDigit, RE.opt (fun c => c == '.'), RE.starG Char.isDigit]

/-- `\d+` — the integer capture group. -/
def natGroup : RE := reSeq [RE.cls Char.isDigit, RE.starG Char.isDigit]

/-- `\d+\.?\d*` — the unsigned-number capture group. -/
def unsignedGroup : RE :=
  reSeq [RE.cls Char.isDigit, RE.starG Char.isDigit,
    RE.opt (fun c => c == '.'), RE.starG Char.isDigit]

/-- `Return\s*\[%\]\s*([+-]?\d+\.?\d*)` -/
def retPat1 : Pat :=
  ⟨reSeq [reLitCI "Return".toList, RE.starG isPySpace, reLitCI "[%]".toList,
    RE.starG isPySpace], numGroup, RE.eps⟩

/-- `Total Return.*?([+-]?\d+\.?\d*)%` -/
def retPat2 : Pat :=
  ⟨reSeq [reLitCI "Total Return".toList, RE.starL isDotChar], numGroup,
    reLitCI "%".toList⟩

/-- `Return.*?([+-]?\d+\.?\d*)` -/
def retPat3 : Pat :=
  ⟨reSeq [reLitCI "Return".toList, RE.starL isDotChar], numGroup, RE.eps⟩

/-- `Sharpe Ratio\s*([+-]?\d+\.?\d*)` -/
def sharpePat1 : Pat :=
  ⟨reSeq [reLitCI "Sharpe Ratio".toList, RE.starG isPySpace], numGroup, RE.eps⟩

/-- `Sharpe\s*([+-]?\d+\.?\d*)` -/
def sharpePat2 : Pat :=
  ⟨reSeq [reLitCI "Sharpe".toList, RE.starG isPySpace], numGroup, RE.eps⟩

/-- `Max\.?\s*Drawdown\s*\[%\]\s*([+-]?\d+\.?\d*)` -/
def ddPat1 : Pat :=
  ⟨reSeq [reLitCI "Max".toList, RE.opt (fun c => c == '.'), RE.starG isPySpace,
    reLitCI "Drawdown".toList, RE.starG isPySpace, reLitCI "[%]".toList,
    RE.starG isPySpace], numGroup, RE.eps⟩

/-- `Max\.?\s*DD.*?([+-]?\d+\.?\d*)` -/
def ddPat2 : Pat :=
  ⟨reSeq [reLitCI "Max".toList, RE.opt (fun c => c == '.'), RE.starG isPySpace,
    reLitCI "DD".toList, RE.starL isDotChar], numGroup, RE.eps⟩

/-- `# Trades\s*(\d+)` -/
def tradesPat1 : Pat :=
  ⟨reSeq [reLitCI "# Trades".toList, RE.starG isPySpace], natGroup, RE.eps⟩

/-- `Trades\s*(\d+)` -/
def tradesPat2 : Pat :=
  ⟨reSeq [reLitCI "Trades".toList, RE.starG isPySpace], natGroup, RE.eps⟩

/-- `Number of trades.*?(\d+)` -/
def tradesPat3 : Pat :=
  ⟨reSeq [reLitCI "Number of trades".toList, RE.starL isDotChar], natGroup, RE.eps⟩

/-- `Win Rate\s*\[%\]\s*(\d+\.?\d*)` -/
def winPat1 : Pat :=
  ⟨reSeq [reLitCI "Win Rate".toList, RE.starG isPySpace, reLitCI "[%]".toList,
    RE.starG isPySpace], unsignedGroup, RE.eps⟩

/-- `Win Rate.*?(\d+\.?\d*)%` -/
def winPat2 : Pat :=
  ⟨reSeq [reLitCI "Win Rate".toList, RE.starL isDotChar], unsignedGroup,
    reLitCI "%".toList⟩

/-- Ordered pattern lists, exactly as listed in the source dict. -/
def returnPats : List Pat := [retPat1, retPat2, retPat3]

def sharpePats : List Pat := [sharpePat1, sharpePat2]

def ddPats : List Pat := [ddPat1, ddPat2]

def tradesPats : List Pat := [tradesPat1, tradesPat2, tradesPat3]

def winPats : List Pat := [winPat1, winPat2]

/-- One pattern attempt: search, then parse the captured group
(`float(match.group(1))`). -/
def matchParse (pat : Pat) (s : List Char) : Option Rat :=
  (searchCap pat s).bind parseNum

/-- The inner `for pattern in pattern_list` loop: the first pattern
that both matches and whose capture parses wins (`break`); a match
whose capture fails to parse is skipped (`except: pass`) and the next
pattern is tried. -/
def tryPatterns : List Pat → List Char → Option Rat
  | [], _ => none
  | pat :: rest, s =>
    match searchCap pat s with
    | none => tryPatterns rest s
    | some cap =>
      match parseNum cap with
      | some v => some v
      | none => tryPatterns rest s

/-- A parsed metrics record: the Python `metrics` dict.  A `none`
field means the key is absent from the dict. -/
structure Metrics where
  ret : Option Rat := none
  sharpe : Option Rat := none
  max_drawdown : Option Rat := none
  trades : Option Rat := none
  win_rate : Option Rat := none
deriving DecidableEq, Repr

/-- The empty metrics dict `{}`. -/
def Metrics.empty : Metrics := {}

/-- `MultiAssetTester._parse_backtest_output`: extract each of the five
metrics independently with its ordered pattern list. -/
def parse_backtest_output (output : List Char) : Metrics :=
  { ret := tryPatterns returnPats output
    sharpe := tryPatterns sharpePats output
    max_drawdown := tryPatterns ddPats output
    trades := tryPatterns tradesPats output
    win_rate := tryPatterns winPats output }

/-! ### Variant generation (`_create_strategy_variant`)

The three rewrite rules are compiled without `re.IGNORECASE`, hence
case-sensitive literals. -/

/-- Rule pattern `data_path\s*=\s*<q>.*?<q>` where `<q>` is the quote
class. -/
def varPat1 : RE :=
  reSeq [reLitCS "data_path".toList, RE.starG isPySpace, RE.cls (fun c => c == '='),
    RE.starG isPySpace, RE.cls isQuote, RE.starL isDotChar, RE.cls isQuote]

/-- Rule pattern `pd\.read_csv\(<q>.*?<q>\)` where `<q>` is the quote
class. -/
def varPat2 : RE :=
  reSeq [reLitCS "pd.read_csv(".toList, RE.cls isQuote, RE.starL isDotChar,
    RE.cls isQuote, reLitCS ")".toList]

/-- Rule pattern `data\s*=\s*pd\.read_csv\(<q>.*?<q>\)` where `<q>` is
the quote class. -/
def varPat3 : RE :=
  reSeq [reLitCS "data".toList, RE.starG isPySpace, RE.cls (fun c => c == '='),
    RE.starG isPySpace, reLitCS "pd.read_csv(".toList, RE.cls isQuote,
    RE.starL isDotChar, RE.cls isQuote, reLitCS ")".toList]

/-- Replacement text `data_path = "<dataPath>"`. -/
def repl1 (dataPath : List Char) : List Char :=
  "data_path = \"".toList ++ dataPath ++ "\"".toList

/-- Replacement text `pd.read_csv("<dataPath>")`. -/
def repl2 (dataPath : List Char) : List Char :=
  "pd.read_csv(\"".toList ++ dataPath ++ "\")".toList

/-- Replacement text `data = pd.read_csv("<dataPath>")`. -/
def repl3 (dataPath : List Char) : List Char :=
  "data = pd.read_csv(\"".toList ++ dataPath ++ "\")".toList

/-- The ordered list `patterns_to_replace`. -/
def patterns_to_replace (dataPath : List Char) : List (RE × List Char) :=
  [(varPat1, repl1 dataPath), (varPat2, repl2 dataPath), (varPat3, repl3 dataPath)]

/-- The `for pattern, replacement in patterns_to_replace` loop: each
rule that matches the current text is substituted everywhere and flips
the `data_path_replaced` flag. -/
def applyRules (dataPath code : List Char) : List Char × Bool :=
  (patterns_to_replace dataPath).foldl
    (fun acc pr =>
      if reSearch pr.1 acc.1 then (subAll pr.1 pr.2 acc.1, true) else acc)
    (code, false)

/-- Header-line test of the injection loop: the line starts with the
word import plus a space, or with the word from plus a space, or is
blank after stripping whitespace, or starts with a hash. -/
def isHeaderLine (l : List Char) : Bool :=
  "import ".toList.isPrefixOf l || "from ".toList.isPrefixOf l ||
  l.all isPySpace || "#".toList.isPrefixOf l

/-- The loop computing `import_end_idx`: count header-style lines until
the first line that is not one (`break`). -/
def import_end_idx : List (List Char) → Nat
  | [] => 0
  | l :: ls => if isHeaderLine l then import_end_idx ls + 1 else 0

/-- Split the code into lines at each newline character. -/
def splitNl (code : List Char) : List (List Char) := code.splitOn '\n'

/-- Join lines back with a newline separator. -/
def joinNl (lines : List (List Char)) : List Char := List.intercalate ['\n'] lines

/-- The injected comment line.  The source inserts it with a leading
newline inside the string, so the element itself starts with a newline
character. -/
def injComment (asset : List Char) : List Char :=
  '\n' :: ("# Data path for ".toList ++ asset ++ " (injected by Multi-Asset Tester)".toList)

/-- The injected declaration line `data_path = "<dataPath>"`. -/
def injDecl (dataPath : List Char) : List Char :=
  "data_path = \"".toList ++ dataPath ++ "\"".toList

/-- The injection fallback: three `lines.insert` calls after the
header block, then rejoin. -/
def injectDataPath (code asset dataPath : List Char) : List Char :=
  joinNl ((((splitNl code).insertIdx (import_end_idx (splitNl code))
      (injComment asset)).insertIdx (import_end_idx (splitNl code) + 1)
      (injDecl dataPath)).insertIdx (import_end_idx (splitNl code) + 2) [])

/-- Content of the variant file produced by
`_create_strategy_variant`: apply the rewrite rules; if none matched,
fall back to injection. -/
def createVariantCode (code asset dataPath : List Char) : List Char :=
  let step := applyRules dataPath code
  if step.2 then step.1 else injectDataPath step.1 asset dataPath

/-! ### Variant filename (`new_filename = f"{strategy_file.stem}_{asset}.py"`) -/

/-- Index of the last `.` that delimits a `pathlib` suffix: it must
be neither the first nor the last character of the name. -/
def lastDot (name : List Char) : Option Nat :=
  (name.reverse.findIdx? (fun c => c == '.')).map (fun j => name.length - 1 - j)

/-- `pathlib.PurePath.suffix` on a file name. -/
def pathSuffix (name : List Char) : List Char :=
  match lastDot name with
  | none => []
  | some i => if 0 < i ∧ i < name.length - 1 then name.drop i else []

/-- `pathlib.PurePath.stem` on a file name. -/
def pathStem (name : List Char) : List Char :=
  name.take (name.length - (pathSuffix name).length)

/-- The variant file name, as built by the source:
`f"{strategy_file.stem}_{asset}.py"`. -/
def variantFilename (srcName asset : List Char) : List Char :=
  pathStem srcName ++ '_' :: asset ++ ".py".toList

/-! ### `test_strategy_on_asset`

The collaborator `run_backtest_in_conda` lives in a separate module;
the worker only inspects its result dict through `.get`.  We model the
dict by the fields actually read, and the worker body by a case split
on how its `try` block resolved: an exception raised by variant
creation or by the collaborator call (both land in the same `except`
clause), or a collaborator result dict. -/

/-- The collaborator result dict, as read via
`backtest_result.get(...)`. -/
structure BacktestResult where
  success : Bool
  stdout : List Char := []
  stderr : List Char := []
  error : Option (List Char) := none
deriving DecidableEq, Repr

/-- How the worker try-block resolved. -/
inductive TaskStep where
  /-- An exception `e` escaped `_create_strategy_variant` or
  `run_backtest_in_conda` and was caught by the `except` clause. -/
  | exn (msg : List Char)
  /-- The collaborator returned a result dict. -/
  | ran (r : BacktestResult)
deriving DecidableEq, Repr

/-- One test-result record.  Wall-clock fields (`execution_time`,
`timestamp`) are omitted; `stdout`/`stderr` are `none` when the
Python dict never receives the key. -/
structure TestResult where
  strategy : List Char
  asset : List Char
  data_path : List Char
  status : List Char
  error : Option (List Char)
  metrics : Metrics
  stdout : Option (List Char)
  stderr : Option (List Char)
deriving DecidableEq, Repr

/-- `MultiAssetTester.test_strategy_on_asset`: build the initial
record with status unknown, run the task, and fill the record
according to the outcome. -/
def test_strategy_on_asset (strategyName asset dataPath : List Char)
    (step : TaskStep) : TestResult :=
  let result : TestResult :=
    { strategy := strategyName
      asset := asset
      data_path := dataPath
      status := "unknown".toList
      error := none
      metrics := Metrics.empty
      stdout := none
      stderr := none }
  match step with
  | .exn e => { result with status := "error".toList, error := some e }
  | .ran r =>
    if r.success then
      { result with
        status := "success".toList
        stdout := some r.stdout
        stderr := some r.stderr
        metrics := parse_backtest_output r.stdout }
    else
      { result with
        status := "failed".toList
        error := some (r.error.getD "Unknown error".toList)
        stderr := some r.stderr }

/-! ### `test_strategy_on_all_assets`

One task is submitted per catalog asset.  `as_completed` yields the
futures in completion order; for each, `future.result()` either
returns the worker record (appended to the results list) or raises (the
`except` clause logs the exception and only bumps the progress
counter).  We model the completion sequence as a list of
`Except`-outcomes in completion order. -/

/-- The result-collection loop over `as_completed`. -/
def collectResults : List (Except (List Char) TestResult) → List TestResult
  | [] => []
  | Except.ok r :: rest => r :: collectResults rest
  | Except.error _ :: rest => collectResults rest

/-- `MultiAssetTester.test_strategy_on_all_assets`: empty catalog
short-circuits to `[]`; otherwise the pool is drained and the
collected list is returned.  `completions` lists, in completion
order, the outcome of `future.result()` for each submitted task. -/
def test_strategy_on_all_assets (assets : List (List Char × List Char))
    (completions : List (Except (List Char) TestResult)) : List TestResult :=
  if assets.isEmpty then [] else collectResults completions

/-! ### `print_summary` (ranking and aggregate means) -/

/-- The successful list: the results whose status equals success. -/
def successful (results : List TestResult) : List TestResult :=
  results.filter (fun r => r.status == "success".toList)

/-- `successful_with_metrics`: successful entries whose metrics dict
contains a `sharpe` key. -/
def successful_with_metrics (results : List TestResult) : List TestResult :=
  (successful results).filter (fun r => r.metrics.sharpe.isSome)

/-- Sort key: the Sharpe value of the metrics dict, defaulting to
-999 when absent. -/
def sharpeKey (r : TestResult) : Rat := r.metrics.sharpe.getD (-999)

/-- The ranked list: `successful_with_metrics` sorted descending by
Sharpe (Python `list.sort` is stable; so is `mergeSort`). -/
def rankedList (results : List TestResult) : List TestResult :=
  (successful_with_metrics results).mergeSort
    (fun a b => decide (sharpeKey b ≤ sharpeKey a))

/-- `avg_sharpe`: computed only inside the `if successful_with_metrics:`
branch (`none` when the ranked list is empty, mirroring "no average is
reported"); `none` also models the `KeyError` that
`r['metrics']['sharpe']` would raise on a missing key. -/
def avg_sharpe (results : List TestResult) : Option Rat :=
  if (rankedList results).isEmpty then none
  else if (rankedList results).all (fun r => r.metrics.sharpe.isSome) then
    some ((((rankedList results).map (fun r => r.metrics.sharpe.getD 0)).sum) /
      (rankedList results).length)
  else none

/-- `avg_return`, same shape as `avg_sharpe` but over
`r['metrics']['return']`, which raises `KeyError` (modelled `none`)
when some ranked entry has no return value. -/
def avg_return (results : List TestResult) : Option Rat :=
  if (rankedList results).isEmpty then none
  else if (rankedList results).all (fun r => r.metrics.ret.isSome) then
    some ((((rankedList results).map (fun r => r.metrics.ret.getD 0)).sum) /
      (rankedList results).length)
  else none

/-- Spec-side characterisation (for C8): the entries with
`status = success` whose metrics contain a Sharpe value, as a single
filter over the full result list. -/
def specFiltered (results : List TestResult) : List TestResult :=
  results.filter (fun r => r.status == "success".toList && r.metrics.sharpe.isSome)

/-! ## Helper lemmas -/

/-- The collection loop keeps exactly the task outcomes whose
`future.result()` returned a record. -/
theorem collectResults_eq_filterMap (l : List (Except (List Char) TestResult)) :
    collectResults l = l.filterMap Except.toOption := by
  induction l with
  | nil => rfl
  | cons c rest ih =>
    cases c with
    | ok r => simp [collectResults, Except.toOption, ih]
    | error e => simp [collectResults, Except.toOption, ih]

/-- When no future raises, the loop keeps every outcome. -/
theorem collectResults_length_of_ok (l : List (Except (List Char) TestResult))
    (h : ∀ c ∈ l, c.isOk) : (collectResults l).length = l.length := by
  induction l with
  | nil => rfl
  | cons c rest ih =>
    cases c with
    | ok r =>
      simp only [collectResults, List.length_cons]
      exact congrArg (· + 1) (ih (fun c hc => h c (List.mem_cons_of_mem _ hc)))
    | error e =>
      exact absurd (h (Except.error e) (List.mem_cons_self _ _))
        (by simp [Except.isOk, Except.toBool])

/-- The pattern loop succeeds exactly when some pattern in the list
both matches and parses. -/
theorem tryPatterns_isSome_iff (ps : List Pat) (s : List Char) :
    (tryPatterns ps s).isSome ↔ ∃ p ∈ ps, (matchParse p s).isSome := by
  induction ps with
  | nil => simp [tryPatterns]
  | cons p rest ih =>
    unfold tryPatterns
    cases hs : searchCap p s with
    | none => simp [matchParse, hs, ih]
    | some cap =>
      cases hp : parseNum cap with
      | none => simp [matchParse, hs, hp, ih]
      | some v => simp [matchParse, hs, hp]

/-- A pattern that matches with a parseable capture short-circuits the
loop (`break`). -/
theorem tryPatterns_cons_some {p : Pat} {ps : List Pat} {s : List Char} {v : Rat}
    (h : matchParse p s = some v) : tryPatterns (p :: ps) s = some v := by
  unfold matchParse at h
  cases hs : searchCap p s with
  | none => rw [hs] at h; exact absurd h (by simp)
  | some cap =>
    rw [hs] at h
    have h' : parseNum cap = some v := h
    unfold tryPatterns
    simp [hs, h']

/-- Scenario D collaborator stdout. -/
def scenarioD : List Char := "Sharpe Ratio    1.85\nReturn [%]   12.40".toList

/-- `float("1.85") = 1.85 = 37/20`. -/
theorem parseNum_1_85 : parseNum "1.85".toList = some (37/20 : Rat) := by
  have h : parseNum "1.85".toList =
      some ((digitsToNat ['1'] : Rat) +
        (digitsToNat ['8', '5'] : Rat) / (10 : Rat) ^ 2) := rfl
  rw [h, show digitsToNat ['1'] = 1 from by decide,
    show digitsToNat ['8', '5'] = 85 from by decide]
  norm_num

/-- `float("12.40") = 12.4 = 62/5`. -/
theorem parseNum_12_40 : parseNum "12.40".toList = some (62/5 : Rat) := by
  have h : parseNum "12.40".toList =
      some ((digitsToNat ['1', '2'] : Rat) +
        (digitsToNat ['4', '0'] : Rat) / (10 : Rat) ^ 2) := rfl
  rw [h, show digitsToNat ['1', '2'] = 12 from by decide,
    show digitsToNat ['4', '0'] = 40 from by decide]
  norm_num

/-- On Scenario D, the first Sharpe pattern matches and captures
`1.85`. -/
theorem matchParse_sharpe1_scenarioD :
    matchParse sharpePat1 scenarioD = some (37/20 : Rat) := by
  unfold matchParse
  rw [show searchCap sharpePat1 scenarioD = some "1.85".toList from by decide]
  exact parseNum_1_85

/-- On Scenario D, the first return pattern matches and captures
`12.40`. -/
theorem matchParse_ret1_scenarioD :
    matchParse retPat1 scenarioD = some (62/5 : Rat) := by
  unfold matchParse
  rw [show searchCap retPat1 scenarioD = some "12.40".toList from by decide]
  exact parseNum_12_40

/-- A fully concrete success record, used as task outcome in concrete
scenarios. -/
def sampleResult : TestResult :=
  { strategy := "Strat".toList
    asset := "BTCUSDT".toList
    data_path := "/data/BTCUSDT.csv".toList
    status := "success".toList
    error := none
    metrics := Metrics.empty
    stdout := none
    stderr := none }

/-- A concrete two-asset catalog. -/
def catalogW : List (List Char × List Char) :=
  [("BTCUSDT".toList, "/data/BTCUSDT.csv".toList),
   ("ETHUSDT".toList, "/data/ETHUSDT.csv".toList)]

/-! ## Claims -/

/-- C1, counterexample: with a two-asset catalog, if for one task
the call `future.result()` raises (e.g. the worker process died and the pool
reports `BrokenProcessPool`), the `except` clause only logs and bumps
the progress counter, so the returned list has one record, not two:
the task is silently dropped from the returned collection. -/
theorem run_drops_task_whose_future_raises :
    (test_strategy_on_all_assets catalogW
      [Except.ok sampleResult, Except.error "BrokenProcessPool".toList]).length ≠
      catalogW.length := by
  decide

/-- C1, amended: `test_strategy_on_all_assets` returns exactly the
records of the tasks whose `future.result()` returned normally, in
completion order; in particular it returns exactly one record per
asset whenever no task raises at the pool level.  A task whose future
raises is dropped from the returned list. -/
theorem run_one_result_per_nonraising_task
    (assets : List (List Char × List Char))
    (completions : List (Except (List Char) TestResult))
    (hlen : completions.length = assets.length) :
    test_strategy_on_all_assets assets completions =
      completions.filterMap Except.toOption ∧
    ((∀ c ∈ completions, c.isOk) →
      (test_strategy_on_all_assets assets completions).length = assets.length) := by
  constructor
  · unfold test_strategy_on_all_assets
    by_cases h : assets.isEmpty
    · have : completions = [] := by
        have := hlen
        rw [List.isEmpty_iff] at h
        subst h
        exact List.eq_nil_of_length_eq_zero this
      simp [h, this]
    · simp [h, collectResults_eq_filterMap]
  · intro hok
    unfold test_strategy_on_all_assets
    by_cases h : assets.isEmpty
    · rw [List.isEmpty_iff] at h
      subst h
      simp at hlen
      simp [hlen]
    · simp only [h, if_false, Bool.false_eq_true]
      rw [collectResults_length_of_ok completions hok, hlen]

/-- C1, witness for the amended theorem: two assets, both futures
return normally, exactly two records come back. -/
theorem run_one_result_per_nonraising_task_witness :
    (test_strategy_on_all_assets catalogW
      [Except.ok sampleResult, Except.ok sampleResult]).length = catalogW.length :=
  (run_one_result_per_nonraising_task catalogW
    [Except.ok sampleResult, Except.ok sampleResult] (by decide)).2 (by decide)

/-- C2: the worker never produces a record with status timeout.
`self.timeout` is stored and printed by `__init__` but never passed to
`run_backtest_in_conda`, and `test_strategy_on_asset` only ever
assigns the statuses `success`, `failed` and `error` — so a task whose
collaborator call exceeds the configured bound is indistinguishable
from any other outcome and is never recorded as a timeout. -/
theorem timeout_status_never_produced (sn a dp : List Char) (step : TaskStep) :
    (test_strategy_on_asset sn a dp step).status ≠ "timeout".toList := by
  cases step with
  | exn e => simp [test_strategy_on_asset]
  | ran r =>
    by_cases h : r.success <;> simp [test_strategy_on_asset, h]

/-- C3: a record whose status is not `success` carries the initial
empty metrics dict — metrics are only ever filled in the success
branch. -/
theorem nonsuccess_has_empty_metrics (sn a dp : List Char) (step : TaskStep)
    (h : (test_strategy_on_asset sn a dp step).status ≠ "success".toList) :
    (test_strategy_on_asset sn a dp step).metrics = Metrics.empty := by
  cases step with
  | exn e => rfl
  | ran r =>
    by_cases hs : r.success
    · exact absurd (by simp [test_strategy_on_asset, hs]) h
    · simp [test_strategy_on_asset, hs]

/-- C3, witness: a concrete failed run has empty metrics. -/
theorem nonsuccess_has_empty_metrics_witness :
    (test_strategy_on_asset "Strat".toList "BTCUSDT".toList
      "/data/BTCUSDT.csv".toList (TaskStep.ran ⟨false, [], [], none⟩)).metrics =
      Metrics.empty :=
  nonsuccess_has_empty_metrics _ _ _ _ (by decide)

/-- C7: the variant file content is a pure function of
`(sourceText, asset, dataPath)`; two runs on identical inputs yield
byte-identical content (no timestamp or other nondeterministic data
is embedded). -/
theorem variant_content_deterministic (c₁ c₂ a₁ a₂ d₁ d₂ : List Char)
    (hc : c₁ = c₂) (ha : a₁ = a₂) (hd : d₁ = d₂) :
    createVariantCode c₁ a₁ d₁ = createVariantCode c₂ a₂ d₂ := by
  subst hc; subst ha; subst hd; rfl

/-- C7, witness: two runs on an identical concrete input agree. -/
theorem variant_content_deterministic_witness :
    createVariantCode "x = 1".toList "SOL".toList "/d/SOL.csv".toList =
      createVariantCode "x = 1".toList "SOL".toList "/d/SOL.csv".toList :=
  variant_content_deterministic _ _ _ _ _ _ rfl rfl rfl

/-- C10: every returned record has status `success`, `failed` or
`error`; the placeholder `unknown` is always overwritten and `timeout`
is never assigned. -/
theorem status_is_success_failed_or_error (sn a dp : List Char) (step : TaskStep) :
    ((test_strategy_on_asset sn a dp step).status = "success".toList ∨
     (test_strategy_on_asset sn a dp step).status = "failed".toList ∨
     (test_strategy_on_asset sn a dp step).status = "error".toList) ∧
    (test_strategy_on_asset sn a dp step).status ≠ "unknown".toList ∧
    (test_strategy_on_asset sn a dp step).status ≠ "timeout".toList := by
  cases step with
  | exn e =>
    exact ⟨Or.inr (Or.inr rfl), by simp [test_strategy_on_asset],
      by simp [test_strategy_on_asset]⟩
  | ran r =>
    by_cases h : r.success
    · exact ⟨Or.inl (by simp [test_strategy_on_asset, h]),
        by simp [test_strategy_on_asset, h], by simp [test_strategy_on_asset, h]⟩
    · exact ⟨Or.inr (Or.inl (by simp [test_strategy_on_asset, h])),
        by simp [test_strategy_on_asset, h], by simp [test_strategy_on_asset, h]⟩

/-- C4: metric extraction is a total function (it cannot raise): on
empty text it returns the empty dict, and on any text each metric is
present exactly when one of its patterns matches with a parseable
capture — an absent metric is absent from the dict, never reported as
zero. -/
theorem extract_total_and_exact_subset :
    parse_backtest_output [] = Metrics.empty ∧
    ∀ s : List Char,
      ((parse_backtest_output s).ret.isSome ↔
        ∃ p ∈ returnPats, (matchParse p s).isSome) ∧
      ((parse_backtest_output s).sharpe.isSome ↔
        ∃ p ∈ sharpePats, (matchParse p s).isSome) ∧
      ((parse_backtest_output s).max_drawdown.isSome ↔
        ∃ p ∈ ddPats, (matchParse p s).isSome) ∧
      ((parse_backtest_output s).trades.isSome ↔
        ∃ p ∈ tradesPats, (matchParse p s).isSome) ∧
      ((parse_backtest_output s).win_rate.isSome ↔
        ∃ p ∈ winPats, (matchParse p s).isSome) := by
  refine ⟨by decide, fun s => ?_⟩
  exact ⟨tryPatterns_isSome_iff returnPats s, tryPatterns_isSome_iff sharpePats s,
    tryPatterns_isSome_iff ddPats s, tryPatterns_isSome_iff tradesPats s,
    tryPatterns_isSome_iff winPats s⟩

/-- C5: for each metric the ordered pattern list is tried in order and
the first pattern that matches with a parseable capture fixes the
value — the remaining patterns are not consulted; and on the Scenario D
stdout the extraction yields exactly `sharpe = 1.85` (37/20) and
`return = 12.40` (62/5), the other three metrics absent. -/
theorem first_matching_pattern_wins :
    (∀ (p : Pat) (ps : List Pat) (s : List Char) (v : Rat),
        matchParse p s = some v → tryPatterns (p :: ps) s = some v) ∧
    parse_backtest_output scenarioD =
      { ret := some (62/5 : Rat)
        sharpe := some (37/20 : Rat)
        max_drawdown := none
        trades := none
        win_rate := none } := by
  constructor
  · intro p ps s v h
    exact tryPatterns_cons_some h
  · unfold parse_backtest_output
    rw [show returnPats = retPat1 :: [retPat2, retPat3] from rfl,
      tryPatterns_cons_some matchParse_ret1_scenarioD,
      show sharpePats = sharpePat1 :: [sharpePat2] from rfl,
      tryPatterns_cons_some matchParse_sharpe1_scenarioD,
      show tryPatterns ddPats scenarioD = none from by decide,
      show tryPatterns tradesPats scenarioD = none from by decide,
      show tryPatterns winPats scenarioD = none from by decide]

/-- C5, witness: applying the first-wins property at the concrete
Scenario D input and the Sharpe pattern list. -/
theorem first_matching_pattern_wins_witness :
    tryPatterns (sharpePat1 :: [sharpePat2]) scenarioD = some (37/20 : Rat) :=
  first_matching_pattern_wins.1 sharpePat1 [sharpePat2] scenarioD (37/20)
    matchParse_sharpe1_scenarioD

/-- The variant filename always carries the `.py` suffix: its last dot
is the one before `py`, at a valid suffix position. -/
theorem pathSuffix_variantFilename (src asset : List Char) :
    pathSuffix (variantFilename src asset) = ".py".toList := by
  have hname : variantFilename src asset =
      (pathStem src ++ '_' :: asset) ++ ".py".toList := by
    simp [variantFilename]
  have hfind3 : ∀ t : List Char,
      List.findIdx? (fun c => c == '.') ('y' :: 'p' :: '.' :: t) = some 2 := by
    intro t
    rw [List.findIdx?_cons, if_neg (by decide), List.findIdx?_cons,
      if_neg (by decide), List.findIdx?_cons, if_pos (by decide)]
  have hrev : (variantFilename src asset).reverse =
      'y' :: 'p' :: '.' :: (pathStem src ++ '_' :: asset).reverse := by
    rw [hname, List.reverse_append]
    rfl
  have hlen : (variantFilename src asset).length =
      (pathStem src ++ '_' :: asset).length + 3 := by
    rw [hname, List.length_append]
    rfl
  have hfind : lastDot (variantFilename src asset) =
      some ((pathStem src ++ '_' :: asset).length) := by
    unfold lastDot
    rw [hrev, hfind3, hlen]
    simp
  have hSpos : 0 < (pathStem src ++ '_' :: asset).length := by
    simp
  have hstep : pathSuffix (variantFilename src asset) =
      if 0 < (pathStem src ++ '_' :: asset).length ∧
          (pathStem src ++ '_' :: asset).length <
            (variantFilename src asset).length - 1 then
        (variantFilename src asset).drop ((pathStem src ++ '_' :: asset).length)
      else [] := by
    unfold pathSuffix
    rw [hfind]
  rw [hstep, if_pos ⟨hSpos, by omega⟩, hname]
  exact List.drop_left _ _

/-- C9, counterexample: for the source file `Strategy.txt` the variant
filename is `Strategy_BTCUSDT.py`, whose extension `.py` differs from
the source extension `.txt` — the code builds the name with a
hard-coded `.py`, not with the extension of the source. -/
theorem variant_filename_not_source_extension :
    pathSuffix (variantFilename "Strategy.txt".toList "BTCUSDT".toList) ≠
      pathSuffix "Strategy.txt".toList := by
  decide

/-- C9, amended: the variant filename is the stem of the source, an
underscore, the asset symbol, and the literal extension `.py` (which
coincides with the extension of the source exactly when the source is
a `.py` file). -/
theorem variant_filename_stem_asset_py (src asset : List Char) :
    variantFilename src asset = pathStem src ++ '_' :: asset ++ ".py".toList ∧
    pathSuffix (variantFilename src asset) = ".py".toList :=
  ⟨rfl, pathSuffix_variantFilename src asset⟩

/-- When none of the three rewrite rules matches, the rule loop leaves
the code unchanged and the `data_path_replaced` flag false. -/
theorem applyRules_of_no_match (dp code : List Char)
    (h1 : reSearch varPat1 code = false) (h2 : reSearch varPat2 code = false)
    (h3 : reSearch varPat3 code = false) :
    applyRules dp code = (code, false) := by
  unfold applyRules patterns_to_replace
  simp [h1, h2, h3]

/-- The `import_end_idx` loop computes the length of the leading run
of header-style lines. -/
theorem import_end_idx_eq (ls : List (List Char)) :
    import_end_idx ls = (ls.takeWhile isHeaderLine).length := by
  induction ls with
  | nil => rfl
  | cons l rest ih =>
    by_cases h : isHeaderLine l
    · simp [import_end_idx, List.takeWhile_cons, h, ih]
    · simp [import_end_idx, List.takeWhile_cons, h]

/-- Three consecutive `insert` calls at `t`, `t+1`, `t+2` splice a
three-element block into the list at position `t`. -/
theorem insertIdx3 {α : Type} (l : List α) (t : Nat) (ht : t ≤ l.length) (a b c : α) :
    ((l.insertIdx t a).insertIdx (t + 1) b).insertIdx (t + 2) c =
      l.take t ++ a :: b :: c :: l.drop t := by
  induction l generalizing t with
  | nil =>
    have h0 : t = 0 := Nat.le_zero.mp ht
    subst h0
    rfl
  | cons x xs ih =>
    cases t with
    | zero => rfl
    | succ t' =>
      have ht' : t' ≤ xs.length := Nat.le_of_succ_le_succ ht
      have hidx : t' + 1 + 2 = t' + 2 + 1 := by omega
      rw [List.insertIdx_succ_cons, List.insertIdx_succ_cons, hidx,
        List.insertIdx_succ_cons, ih t' ht']
      rfl

/-- Taking as many elements as `takeWhile` keeps recovers
`takeWhile`. -/
theorem take_length_takeWhile {α : Type} (p : α → Bool) (l : List α) :
    l.take (l.takeWhile p).length = l.takeWhile p := by
  induction l with
  | nil => rfl
  | cons x xs ih =>
    by_cases h : p x
    · simp [List.takeWhile_cons, h, ih]
    · simp [List.takeWhile_cons, h]

/-- Dropping as many elements as `takeWhile` keeps leaves
`dropWhile`. -/
theorem drop_length_takeWhile {α : Type} (p : α → Bool) (l : List α) :
    l.drop (l.takeWhile p).length = l.dropWhile p := by
  induction l with
  | nil => rfl
  | cons x xs ih =>
    by_cases h : p x
    · simp [List.takeWhile_cons, List.dropWhile_cons, h, ih]
    · simp [List.takeWhile_cons, List.dropWhile_cons, h]

/-- C6: when no rewrite rule matches the source text, the variant is
the original lines with the injected block — a comment line and the
declaration `data_path = "<dataPath>"` — spliced in immediately after
the leading header block (the maximal run of blank/comment/import-style
lines); every original line is kept unchanged on either side. -/
theorem no_rule_match_injects (code asset dp : List Char)
    (h1 : reSearch varPat1 code = false) (h2 : reSearch varPat2 code = false)
    (h3 : reSearch varPat3 code = false) :
    createVariantCode code asset dp =
      joinNl ((splitNl code).takeWhile isHeaderLine ++
        injComment asset :: injDecl dp :: [] ::
          (splitNl code).dropWhile isHeaderLine) := by
  unfold createVariantCode
  rw [applyRules_of_no_match dp code h1 h2 h3]
  show injectDataPath code asset dp = _
  unfold injectDataPath
  rw [import_end_idx_eq]
  rw [insertIdx3 _ _ (List.takeWhile_sublist _).length_le _ _ _]
  rw [take_length_takeWhile, drop_length_takeWhile]

/-- C6, witness: a source with no header lines and no data reference
gets the injected block at the very top. -/
theorem no_rule_match_injects_witness :
    createVariantCode "x = 1".toList "SOL".toList "/d/SOL.csv".toList =
      joinNl ((splitNl "x = 1".toList).takeWhile isHeaderLine ++
        injComment "SOL".toList :: injDecl "/d/SOL.csv".toList :: [] ::
          (splitNl "x = 1".toList).dropWhile isHeaderLine) :=
  no_rule_match_injects "x = 1".toList "SOL".toList "/d/SOL.csv".toList
    (by decide) (by decide) (by decide)

/-- The two nested filters of `print_summary` equal one filter with
the conjoined predicate over the full result list. -/
theorem successful_with_metrics_eq (results : List TestResult) :
    successful_with_metrics results = specFiltered results := by
  unfold successful_with_metrics successful specFiltered
  rw [List.filter_filter]
  exact List.filter_congr (fun a _ => by rw [Bool.and_comm])

/-- The ranked list is a permutation of the filtered set. -/
theorem rankedList_perm (results : List TestResult) :
    (rankedList results).Perm (specFiltered results) := by
  unfold rankedList
  rw [successful_with_metrics_eq]
  exact List.mergeSort_perm _ _

/-- C8: the ranked entries are exactly the `status = success` results
whose metrics contain a Sharpe value (as a multiset — sorting only
reorders them), and, whenever the summary reports them, the mean
Sharpe and mean return are the arithmetic means over exactly that
filtered set, not over the full result list. -/
theorem ranking_and_means (results : List TestResult) :
    (rankedList results).Perm (specFiltered results) ∧
    (specFiltered results ≠ [] →
      avg_sharpe results = some
        (((specFiltered results).map (fun r => r.metrics.sharpe.getD 0)).sum /
          (specFiltered results).length)) ∧
    (specFiltered results ≠ [] →
      (∀ r ∈ specFiltered results, r.metrics.ret.isSome) →
      avg_return results = some
        (((specFiltered results).map (fun r => r.metrics.ret.getD 0)).sum /
          (specFiltered results).length)) := by
  have hperm := rankedList_perm results
  have hmem : ∀ r ∈ rankedList results,
      (r.status == "success".toList && r.metrics.sharpe.isSome) = true := by
    intro r hr
    have hr' := hperm.mem_iff.mp hr
    unfold specFiltered at hr'
    exact @List.of_mem_filter _
      (fun r => r.status == "success".toList && r.metrics.sharpe.isSome) r results hr'
  have hnonempty : specFiltered results ≠ [] →
      (rankedList results).isEmpty ≠ true := by
    intro hne h0
    have h1 : rankedList results = [] := List.isEmpty_iff.mp h0
    have hlen := hperm.length_eq
    rw [h1] at hlen
    exact hne (List.eq_nil_of_length_eq_zero hlen.symm)
  refine ⟨hperm, ?_, ?_⟩
  · intro hne
    have hall : (rankedList results).all (fun r => r.metrics.sharpe.isSome) = true := by
      rw [List.all_eq_true]
      intro r hr
      exact (Bool.and_elim_right (hmem r hr))
    unfold avg_sharpe
    rw [if_neg (hnonempty hne), if_pos hall,
      (hperm.map (fun r => r.metrics.sharpe.getD 0)).sum_eq, hperm.length_eq]
  · intro hne hret
    have hall : (rankedList results).all (fun r => r.metrics.ret.isSome) = true := by
      rw [List.all_eq_true]
      intro r hr
      exact hret r (hperm.mem_iff.mp hr)
    unfold avg_return
    rw [if_neg (hnonempty hne), if_pos hall,
      (hperm.map (fun r => r.metrics.ret.getD 0)).sum_eq, hperm.length_eq]

/-- A concrete success record with Sharpe 2 and return 10. -/
def resHigh : TestResult :=
  { strategy := "Strat".toList
    asset := "AAA".toList
    data_path := "/d/AAA.csv".toList
    status := "success".toList
    error := none
    metrics := { ret := some 10, sharpe := some 2 }
    stdout := none
    stderr := none }

/-- A concrete success record with Sharpe 1 and return 20. -/
def resLow : TestResult :=
  { strategy := "Strat".toList
    asset := "BBB".toList
    data_path := "/d/BBB.csv".toList
    status := "success".toList
    error := none
    metrics := { ret := some 20, sharpe := some 1 }
    stdout := none
    stderr := none }

/-- A concrete failed record with empty metrics. -/
def resFail : TestResult :=
  { strategy := "Strat".toList
    asset := "CCC".toList
    data_path := "/d/CCC.csv".toList
    status := "failed".toList
    error := some "boom".toList
    metrics := Metrics.empty
    stdout := none
    stderr := none }

/-- A concrete mixed result list. -/
def rsW : List TestResult := [resLow, resFail, resHigh]

/-- C8, witness: on the concrete mixed list both means are reported
and equal the means over the filtered set. -/
theorem ranking_and_means_witness :
    avg_sharpe rsW = some
      (((specFiltered rsW).map (fun r => r.metrics.sharpe.getD 0)).sum /
        (specFiltered rsW).length) ∧
    avg_return rsW = some
      (((specFiltered rsW).map (fun r => r.metrics.ret.getD 0)).sum /
        (specFiltered rsW).length) :=
  ⟨(ranking_and_means rsW).2.1 (by decide),
   (ranking_and_means rsW).2.2 (by decide) (by decide)⟩

end RBI

